import Mathlib

namespace RenogyBT

/-!
Verification of the renogy-bt ESPHome proxy against its specification.

Shallow embedding of the relevant Python source into Lean:
* `renogybt/esphome_api_server.py`: native-API framing (`_encode_varint`,
  `_make_packet`, the varint decode loop of `data_received`), raw-advertisement
  reconstruction (`_send_ble_advertisement`), sensor state publication
  (`send_sensor_states`), `ESPHomeAPIServer.set_sensor_entities`.
* `renogybt/unified_ble_manager.py`: `_calculate_crc` (CRC-16/Modbus).
* `renogybt/BaseClient.py`: `on_data_received` section dispatch,
  `create_generic_read_request`.
* `renogy_bt_proxy.py`: `ScannerSupervisor` pause/resume token logic,
  `ADAPTER_NAME_PATTERN` self-advertisement filter, entity base-key computation.
* `renogybt/sensor_definitions.py`: `create_sensor_entities_from_data`
  key allocation.

Bytes are modelled as `Nat` (values < 256 where it matters); Python bitwise
operators map to `Nat` bitwise operators (`&&&`, `|||`, `>>>`, `<<<`, `^^^`).
-/

/-! ## Native API framing (`esphome_api_server.py`)

`_encode_varint`: repeatedly emit the low 7 bits with the continuation bit set
while more than 0x7F remains, then the final byte with the continuation bit
clear. -/

def encode_varint (v : Nat) : List Nat :=
  if v > 0x7F then ((v &&& 0x7F) ||| 0x80) :: encode_varint (v >>> 7) else [v &&& 0x7F]
termination_by v
decreasing_by
  simp only [Nat.shiftRight_eq_div_pow]
  omega

/-- Embeds `_make_packet`: `[0x00][varint payload_len][varint msg_type][payload]`;
the length field is `len(payload)` only. -/
def make_packet (msgType : Nat) (payload : List Nat) : List Nat :=
  0x00 :: (encode_varint payload.length ++ (encode_varint msgType ++ payload))

/-- Embeds `_read_varuint` of `ESPHomeAPIProtocol`: accumulate
`result |= (byte & 0x7F) << shift` until a byte with the high bit clear;
running off the end of the buffer yields `-1` (here `none`).
Returns the value and the number of bytes consumed. -/
def read_varuint_aux : List Nat → Nat → Nat → Option (Nat × Nat)
  | [], _, _ => none
  | b :: rest, shift, acc =>
    if b &&& 0x80 = 0 then some (acc ||| ((b &&& 0x7F) <<< shift), 1)
    else
      (read_varuint_aux rest (shift + 7) (acc ||| ((b &&& 0x7F) <<< shift))).map
        (fun vc => (vc.1, vc.2 + 1))

def read_varuint (buf : List Nat) : Option (Nat × Nat) :=
  read_varuint_aux buf 0 0

/-- The framing branch of `ESPHomeAPIProtocol.data_received` for the first
frame in the buffer: requires at least 3 buffered bytes, reads the preamble
varint (must be 0), the payload-length varint, the message-type varint, then
`length` payload bytes. Returns `(msg_type, payload, consumed)`; `none` when
the buffer is incomplete or the preamble is non-zero (connection closed). -/
def decode_frame (buf : List Nat) : Option (Nat × List Nat × Nat) :=
  if buf.length < 3 then none
  else
    match read_varuint buf with
    | none => none
    | some (preamble, c1) =>
      if preamble ≠ 0 then none
      else
        match read_varuint (buf.drop c1) with
        | none => none
        | some (len, c2) =>
          match read_varuint (buf.drop (c1 + c2)) with
          | none => none
          | some (msgType, c3) =>
            let rest := buf.drop (c1 + c2 + c3)
            if rest.length < len then none
            else some (msgType, rest.take len, c1 + c2 + c3 + len)

/-! ## CRC-16/Modbus (`unified_ble_manager.py`, `_calculate_crc`) -/

/-- One inner-loop iteration: `crc = (crc >> 1) ^ 0xA001` if the low bit is
set, else `crc >>= 1`. -/
def crc_step (crc : Nat) : Nat :=
  if crc &&& 0x0001 ≠ 0 then (crc >>> 1) ^^^ 0xA001 else crc >>> 1

def crc_rounds : Nat → Nat → Nat
  | crc, 0 => crc
  | crc, k + 1 => crc_rounds (crc_step crc) k

/-- Embeds the `_calculate_crc` accumulator: start `0xFFFF`, per byte `crc ^= byte`
followed by eight shift rounds. -/
def calculate_crc (data : List Nat) : Nat :=
  data.foldl (fun crc b => crc_rounds (crc ^^^ b) 8) 0xFFFF

/-- The byte pair `_calculate_crc` returns: `bytes([crc & 0xFF, (crc >> 8) & 0xFF])`:
low byte first. -/
def calculate_crc_bytes (data : List Nat) : List Nat :=
  [calculate_crc data &&& 0xFF, (calculate_crc data >>> 8) &&& 0xFF]

/-- Modelled from the spec: `crc16_modbus` of the missing `renogybt/Utils.py`
(imported by `BaseClient.py`). Per §4.2 it is CRC-16/Modbus, polynomial
`0xA001`, initial value `0xFFFF`, reflected, "little-endian on the wire",
matching `UnifiedBLEManager._calculate_crc` which returns `[lo, hi]`. -/
def crc16_modbus (data : List Nat) : List Nat :=
  calculate_crc_bytes data

/-- Modelled from the spec: `int_to_bytes(value, index)` of the missing
`renogybt/Utils.py`. Per §4.2 a request is
`[unit_id][0x03][reg_hi][reg_lo][count_hi][count_lo][crc_lo][crc_hi]`,
so index 0 selects the high byte and index 1 the low byte. -/
def int_to_bytes (value index : Nat) : Nat :=
  if index = 0 then (value >>> 8) &&& 0xFF else value &&& 0xFF

/-- Embeds `BaseClient.create_generic_read_request`: device id, function code,
register high/low, word-count high/low, then the CRC bytes `crc[0], crc[1]`
in the order returned by `crc16_modbus` (low byte first). -/
def create_generic_read_request (deviceId function regAddr readWrd : Nat) : List Nat :=
  let data := [deviceId, function,
               int_to_bytes regAddr 0, int_to_bytes regAddr 1,
               int_to_bytes readWrd 0, int_to_bytes readWrd 1]
  let crc := crc16_modbus data
  data ++ [crc.getD 0 0, crc.getD 1 0]

/-! ## Modbus section dispatch (`BaseClient.on_data_received`) -/

/-- One entry of `BaseClient.sections`:
`{'register': …, 'words': …, 'parser': …}`; `hasParser` records whether the
parser is not `None`. -/
structure RegSection where
  register : Nat
  words : Nat
  hasParser : Bool
deriving DecidableEq

structure ClientState where
  sectionIndex : Nat
  deviceIndex : Nat
deriving DecidableEq

/-- Outcome of one `on_data_received` call: whether the section parser ran,
whether the cycle was continued (next section scheduled, or the pass completed
and the next unit id armed), and the updated indices. -/
structure ReadStep where
  parserInvoked : Bool
  continues : Bool
  state : ClientState
deriving DecidableEq

/-- Modelled from the spec: `bytes_to_int(response, 1, 1)` of the missing
`renogybt/Utils.py` reads the single byte at offset 1, i.e. `response[1]`
(§4.2: a response is `[unit_id][fn][byte_count][data…][crc_lo][crc_hi]`). -/
def bytes_to_int_1_1 (response : List Nat) : Nat :=
  response.getD 1 0

def READ_SUCCESS : Nat := 3

def READ_ERROR : Nat := 131

/-- Embeds `BaseClient.on_data_received`: if the operation byte is `READ_SUCCESS`
or `READ_ERROR`, the parser runs exactly when the operation is `READ_SUCCESS`,
the section index is in range, the section has a parser and
`words * 2 + 5 == len(response)`; then the cycle advances (next section, or
section reset plus device advance / pass completion). Any other operation
byte only logs `unknown operation`: no parser, no state change, and no
follow-up read is scheduled. -/
def on_data_received (sections : List RegSection) (deviceIds : List Nat)
    (s : ClientState) (response : List Nat) : ReadStep :=
  let operation := bytes_to_int_1_1 response
  if operation = READ_SUCCESS ∨ operation = READ_ERROR then
    let sec := sections.getD s.sectionIndex ⟨0, 0, false⟩
    let invoked := operation == READ_SUCCESS
                   && Nat.blt s.sectionIndex sections.length
                   && sec.hasParser
                   && sec.words * 2 + 5 == response.length
    if s.sectionIndex ≥ sections.length - 1 then
      if s.deviceIndex ≥ deviceIds.length - 1 then
        { parserInvoked := invoked, continues := true, state := ⟨0, 0⟩ }
      else
        { parserInvoked := invoked, continues := true, state := ⟨0, s.deviceIndex + 1⟩ }
    else
      { parserInvoked := invoked, continues := true,
        state := ⟨s.sectionIndex + 1, s.deviceIndex⟩ }
  else
    { parserInvoked := false, continues := false, state := s }

/-! ## Scanner supervisor pause/resume (`renogy_bt_proxy.py`) -/

/-- The token-relevant state of `ScannerSupervisor`: `_running`,
`_pause_tokens` (a Python `int`, hence `Int`), `_shutdown`. -/
structure SupState where
  running : Bool
  pauseTokens : Int
  shutdown : Bool
deriving DecidableEq

/-- Embeds `ScannerSupervisor._set_running_locked`: a start request is honoured only
when not running, not shutting down and no pause tokens are outstanding; a
stop request only when running. The underlying `scanner.start()` /
`scanner.stop()` calls are modelled as succeeding (the `BleakError` branches
are external-failure paths outside the token logic). -/
def set_running_locked (s : SupState) (target : Bool) : SupState :=
  if target = true then
    if s.running = true ∨ s.shutdown = true ∨ 0 < s.pauseTokens then s
    else { s with running := true }
  else
    if s.running = false then s
    else { s with running := false }

/-- Embeds `ScannerSupervisor.pause`: increment the token count; stop the scanner
when this is the first outstanding token. -/
def pause (s : SupState) : SupState :=
  if s.pauseTokens + 1 = 1 then
    set_running_locked { s with pauseTokens := s.pauseTokens + 1 } false
  else
    { s with pauseTokens := s.pauseTokens + 1 }

/-- Embeds `ScannerSupervisor.resume`: a resume with no outstanding tokens is
skipped; otherwise decrement and restart the scanner once the count reaches
zero. -/
def resume (s : SupState) : SupState :=
  if s.pauseTokens = 0 then s
  else if s.pauseTokens - 1 = 0 then
    set_running_locked { s with pauseTokens := s.pauseTokens - 1 } true
  else
    { s with pauseTokens := s.pauseTokens - 1 }

inductive SupOp where
  | pauseOp
  | resumeOp

def run_ops : SupState → List SupOp → SupState
  | s, [] => s
  | s, SupOp.pauseOp :: rest => run_ops (pause s) rest
  | s, SupOp.resumeOp :: rest => run_ops (resume s) rest

/-! ## Raw advertisement reconstruction
(`ESPHomeAPIProtocol._send_ble_advertisement`)

UUIDs are represented by the byte list of the normalized hex string (the
source's `normalized_uuid` of 4/8/32 hex digits becomes a byte list of length
2/4/16; the source's `bytes.fromhex(...)[::-1]` becomes `List.reverse`). -/

/-- The parsed advertisement fields used by the reconstruction. `flags` is
`some f` when the event carries an integer flags value. -/
structure AdvEvent where
  flags : Option Nat
  nameBytes : List Nat
  manufacturerData : List (Nat × List Nat)
  serviceData : List (List Nat × List Nat)
  serviceUuids : List (List Nat)
  txPower : Option Int
deriving DecidableEq

/-- Embeds `add_segment`: skip empty payloads; `length = len(payload) + 1`; skip
segments whose length byte would exceed 255; otherwise emit
`[len, type, payload...]`. Returns a zero-or-one element list of segments. -/
def add_segment (adType : Nat) (payload : List Nat) : List (List Nat) :=
  if payload = [] then []
  else if payload.length + 1 > 255 then []
  else [(payload.length + 1) :: adType :: payload]

/-- The `data` field of the `BluetoothLERawAdvertisement` synthesized by
`_send_ble_advertisement`: flags (0x01, default 0x06), complete local name
(0x09), manufacturer data (0xFF, little-endian company id), service data
(0x16/0x20/0x21 by UUID size, UUID bytes reversed), service UUID lists
(0x03/0x05/0x07), TX power (0x0A). -/
def build_raw_data (ev : AdvEvent) : List Nat :=
  let flagsSeg := match ev.flags with
    | some f => add_segment 0x01 [f &&& 0xFF]
    | none => add_segment 0x01 [0x06]
  let nameSeg := add_segment 0x09 ev.nameBytes
  let manuSegs := (ev.manufacturerData.map (fun cd =>
    add_segment 0xFF ([cd.1 &&& 0xFF, (cd.1 >>> 8) &&& 0xFF] ++ cd.2))).flatten
  let svcSegs := (ev.serviceData.map (fun ud =>
    if ud.1.length = 2 then add_segment 0x16 (ud.1.reverse ++ ud.2)
    else if ud.1.length = 4 then add_segment 0x20 (ud.1.reverse ++ ud.2)
    else if ud.1.length = 16 then add_segment 0x21 (ud.1.reverse ++ ud.2)
    else [])).flatten
  let uuid16 := (ev.serviceUuids.filter (fun u => u.length = 2)).map List.reverse
  let uuid32 := (ev.serviceUuids.filter (fun u => u.length = 4)).map List.reverse
  let uuid128 := (ev.serviceUuids.filter (fun u => u.length = 16)).map List.reverse
  let u16Seg := if uuid16.isEmpty then [] else add_segment 0x03 uuid16.flatten
  let u32Seg := if uuid32.isEmpty then [] else add_segment 0x05 uuid32.flatten
  let u128Seg := if uuid128.isEmpty then [] else add_segment 0x07 uuid128.flatten
  let txSeg := match ev.txPower with
    | some t => add_segment 0x0A [(t % 256).toNat]
    | none => []
  (flagsSeg ++ nameSeg ++ manuSegs ++ svcSegs ++ u16Seg ++ u32Seg ++ u128Seg
    ++ txSeg).flatten

/-- Whether `seg` is an initial run of `l`. -/
def seg_at : List Nat → List Nat → Bool
  | [], _ => true
  | _ :: _, [] => false
  | a :: s, b :: l => a == b && seg_at s l

/-- Whether `seg` occurs contiguously anywhere inside `l`. -/
def segment_occurs (seg : List Nat) : List Nat → Bool
  | [] => seg_at seg []
  | l@(_ :: t) => seg_at seg l || segment_occurs seg t

/-- The C4 event: only manufacturer data `{0x02E1: 11 22 33}` is populated. -/
def c4_event : AdvEvent :=
  { flags := none, nameBytes := [],
    manufacturerData := [(0x02E1, [0x11, 0x22, 0x33])],
    serviceData := [], serviceUuids := [], txPower := none }

/-! ## Sensor state publication (`ESPHomeAPIProtocol.send_sensor_states`)

Sensor values (Python floats) are modelled as `Int`; only equality of values
matters for the claim. -/

/-- The fields of a `_sensor_entities` entry used by `send_sensor_states` and
`set_sensor_entities`: `key`, the optional `data_key` (defaulting to the
entity key) and `force_update`. -/
structure EntityInfo where
  key : Nat
  dataKey : Option String
  forceUpdate : Bool
deriving DecidableEq

/-- Evaluates `entity_info.get('data_key', entity_key)`. -/
def entity_data_key (entityKey : String) (e : EntityInfo) : String :=
  e.dataKey.getD entityKey

/-- The inner loop of `send_sensor_states`: the first entity (in dictionary
order) whose data key matches, if any (`break` after the first hit). -/
def find_matching_entity (entities : List (String × EntityInfo))
    (dataKey : String) : Option EntityInfo :=
  (entities.find? (fun ke => entity_data_key ke.1 ke.2 == dataKey)).map (·.2)

/-- Embeds `send_sensor_states`: nothing is written unless the session is subscribed
to states and has a transport; otherwise one
`SensorStateResponse (key, state, missing_state=False)` is emitted per data
item having a matching entity. No previous-value or `force_update` check
appears anywhere. -/
def send_sensor_states (subscribedToStates : Bool) (hasTransport : Bool)
    (entities : List (String × EntityInfo)) (sensorData : List (String × Int)) :
    List (Nat × Int × Bool) :=
  if !subscribedToStates || !hasTransport then []
  else sensorData.filterMap (fun dv =>
    (find_matching_entity entities dv.1).map (fun e => (e.key, dv.2, false)))

/-- A sequence of readings handed to the server, in order; the protocol object
holds no last-published-value state, so each batch is processed by
`send_sensor_states` alone. -/
def process_readings (subscribedToStates : Bool) (hasTransport : Bool)
    (entities : List (String × EntityInfo))
    (batches : List (List (String × Int))) : List (List (Nat × Int × Bool)) :=
  batches.map (send_sensor_states subscribedToStates hasTransport entities)

def c5_entities : List (String × EntityInfo) :=
  [("bat_voltage", ⟨1000, some "voltage", false⟩)]

/-! ## Advertisement self-filter (`renogy_bt_proxy.py`)

`ADAPTER_NAME_PATTERN = re.compile(r"^hci\d+\s+\([0-9A-Fa-f:]+\)$")` and the
guard in `on_ble_advertisement`. The regex is embedded as a greedy
deterministic matcher, which is equivalent because adjacent character classes
of the pattern are disjoint; `\d` and `\s` are modelled by their ASCII
portions. -/

/-- The ASCII portion of Python's `\s`. -/
def is_space_char (c : Char) : Bool :=
  c == ' ' || c == '\t' || c == '\n' || c == '\x0b' || c == '\x0c' || c == '\r'

/-- The class `[0-9A-Fa-f:]`. -/
def is_hex_colon_char (c : Char) : Bool :=
  c.isDigit || ('A' ≤ c && c ≤ 'F') || ('a' ≤ c && c ≤ 'f') || c == ':'

/-- Embeds `ADAPTER_NAME_PATTERN.match(name)` (the pattern is fully anchored):
`hci`, one or more digits, one or more whitespace characters, `(`, one or
more `[0-9A-Fa-f:]` characters, `)`, end of string. -/
def adapter_name_match (s : String) : Bool :=
  match s.toList with
  | 'h' :: 'c' :: 'i' :: rest =>
    let ds := rest.takeWhile Char.isDigit
    let r1 := rest.dropWhile Char.isDigit
    let ws := r1.takeWhile is_space_char
    let r2 := r1.dropWhile is_space_char
    if ds.isEmpty || ws.isEmpty then false
    else
      match r2 with
      | '(' :: r3 =>
        let hs := r3.takeWhile is_hex_colon_char
        let r4 := r3.dropWhile is_hex_colon_char
        !hs.isEmpty && r4 == [')']
      | _ => false
  | _ => false

/-- The fan-out guard of `on_ble_advertisement`: nothing is forwarded without
a registered subscription callback; an event whose (truthy) device name
matches `ADAPTER_NAME_PATTERN` returns before the fan-out callback.
The result is whether `send_advertisement_callback` is invoked. -/
def on_ble_advertisement_forwards (callbackSet : Bool) (name : Option String) :
    Bool :=
  if !callbackSet then false
  else
    match name with
    | none => true
    | some n => if !(n == "") && adapter_name_match n then false else true

/-- The character class `[0-9A-F:]` of the claim's pattern
`^hci\d+ \([0-9A-F:]+\)$` (spec §8 property 7). -/
def claim_upper_hex_colon (c : Char) : Bool :=
  c.isDigit || ('A' ≤ c && c ≤ 'F') || c == ':'

/-! ## Entity key allocation (`create_sensor_entities_from_data`,
`renogy_bt_proxy.on_data_received`) -/

/-- One `(data_key, value)` item of a reading; `numeric` records
`isinstance(value, (int, float))`. -/
structure DataField where
  name : String
  numeric : Bool
deriving DecidableEq

/-- The filter of `create_sensor_entities_from_data`: numeric values only,
skipping internal fields (leading underscore) and `function` / `device_id`. -/
def included_field (f : DataField) : Bool :=
  f.numeric && !(f.name.startsWith "_")
    && !(f.name == "function") && !(f.name == "device_id")

/-- The key-allocation skeleton of `create_sensor_entities_from_data`:
`key_counter` starts at `base_key` and increments once per exported field, in
iteration order; each entity is stored under `f"{alias}_{data_key}"`.
(The unit/icon/device-class attribute guessing is irrelevant to key
allocation and omitted.) -/
def create_sensor_entities_keys : List DataField → String → Int → List (String × Int)
  | [], _, _ => []
  | f :: fs, aliasName, k =>
    if included_field f then
      (aliasName ++ "_" ++ f.name, k)
        :: create_sensor_entities_keys fs aliasName (k + 1)
    else
      create_sensor_entities_keys fs aliasName k

/-- The per-device base key of `renogy_bt_proxy.on_data_received`:
`device_num = dev_id if isinstance(dev_id, int) else 48;
base_key = 1000 + (device_num - 48) * 1000`. -/
def device_base_key (devId : Option Int) : Int :=
  1000 + (devId.getD 48 - 48) * 1000

/-- The base key passed for combined entities:
`create_sensor_entities_from_data(..., base_key=5000)`. -/
def combined_base_key : Int := 5000

def int_range_from (base : Int) : Nat → List Int
  | 0 => []
  | n + 1 => base :: int_range_from (base + 1) n

/-! ## `set_sensor_entities` call compatibility
(`ESPHomeAPIServer.set_sensor_entities` and its call sites in
`renogy_bt_proxy.on_data_received`) -/

/-- The parameter list of `def set_sensor_entities(self, entities)` after
`self`. -/
def set_sensor_entities_params : List String := ["entities"]

structure ServerState where
  sensorEntities : List (String × EntityInfo)
deriving DecidableEq

/-- Python call semantics of
`server.set_sensor_entities(entities, **kwargs)`: a keyword argument whose
name is not among the declared parameters raises `TypeError` (as does
re-binding the positionally-passed `entities`); on success the body performs
`self._sensor_entities = entities`. -/
def call_set_sensor_entities (st : ServerState)
    (ents : List (String × EntityInfo)) (kwargNames : List String) :
    Except String ServerState :=
  if kwargNames.any (fun k => !set_sensor_entities_params.contains k) then
    Except.error "unexpected keyword argument"
  else if kwargNames.contains "entities" then
    Except.error "multiple values for argument"
  else
    Except.ok { st with sensorEntities := ents }

structure ProxyInitState where
  initializedIds : List String
deriving DecidableEq

/-- The entity-initialization fragment of `renogy_bt_proxy.on_data_received`
(per-device, lines 449-460, and combined, lines 479-496): inside `try`, call
`api_server.set_sensor_entities(entities, replace=False)` and only then mark
the alias as initialized; `except Exception` logs and leaves all state
unchanged. -/
def init_device_entities (server : ServerState) (st : ProxyInitState)
    (aliasId : String) (entities : List (String × EntityInfo)) :
    ServerState × ProxyInitState :=
  match call_set_sensor_entities server entities ["replace"] with
  | Except.error _ => (server, st)
  | Except.ok server' =>
    (server', { st with initializedIds := aliasId :: st.initializedIds })

/-! ### Arithmetic facts about the byte-level operators -/

theorem and_127_eq_mod (n : Nat) : n &&& 0x7F = n % 128 := by
  have h : (0x7F : Nat) = 2 ^ 7 - 1 := rfl
  rw [h, Nat.and_pow_two_sub_one_eq_mod]

theorem and_128_eq_zero {n : Nat} (h : n < 128) : n &&& 0x80 = 0 := by
  have h7 : n.testBit 7 = false := Nat.testBit_lt_two_pow (by omega)
  have h128 : (0x80 : Nat) = 2 ^ 7 := rfl
  rw [h128, Nat.and_two_pow, h7]
  rfl

theorem lor_shiftLeft_eq_add {a : Nat} (b : Nat) {s : Nat} (h : a < 2 ^ s) :
    a ||| (b <<< s) = a + b * 2 ^ s := by
  calc a ||| (b <<< s) = 2 ^ s * b ||| a := by
        rw [Nat.shiftLeft_eq, Nat.lor_comm, Nat.mul_comm]
    _ = 2 ^ s * b + a := (Nat.mul_add_lt_is_or h _).symm
    _ = a + b * 2 ^ s := by ring

theorem lor_128_eq_add {n : Nat} (h : n < 128) : n ||| 0x80 = n + 128 := by
  have h2 : (0x80 : Nat) = 2 ^ 7 * 1 := by norm_num
  rw [Nat.lor_comm, h2, ← Nat.mul_add_lt_is_or (show n < 2 ^ 7 by omega) 1]
  norm_num [Nat.add_comm]

/-! ### Varint round trip -/

theorem encode_varint_ne_nil (n : Nat) : encode_varint n ≠ [] := by
  rw [encode_varint.eq_def]
  split <;> simp

theorem read_varuint_aux_encode (n : Nat) :
    ∀ (rest : List Nat) (shift acc : Nat), acc < 2 ^ shift →
      read_varuint_aux (encode_varint n ++ rest) shift acc
        = some (acc + n * 2 ^ shift, (encode_varint n).length) := by
  induction n using Nat.strong_induction_on with
  | _ n ih =>
    intro rest shift acc hacc
    rw [encode_varint.eq_def]
    by_cases h : n > 0x7F
    · rw [if_pos h, List.cons_append]
      have hb : (n &&& 0x7F) ||| 0x80 = n % 128 + 128 := by
        rw [and_127_eq_mod]; exact lor_128_eq_add (Nat.mod_lt _ (by omega))
      have hbhigh : ¬ (n % 128 + 128) &&& 0x80 = 0 := by
        have htb : (n % 128 + 128).testBit 7 = true := by
          rw [show n % 128 + 128 = 2 ^ 7 + n % 128 by omega,
              Nat.testBit_two_pow_add_eq,
              Nat.testBit_lt_two_pow (x := n % 128) (by omega)]
          rfl
        have hand := Nat.and_two_pow (n % 128 + 128) 7
        rw [htb] at hand
        norm_num at hand
        omega
      have hblow : (n % 128 + 128) &&& 0x7F = n % 128 := by
        rw [and_127_eq_mod]; omega
      rw [read_varuint_aux, hb, if_neg hbhigh, hblow,
          lor_shiftLeft_eq_add _ hacc]
      have hacc'lt : acc + n % 128 * 2 ^ shift < 2 ^ (shift + 7) := by
        have hm : n % 128 ≤ 127 := by omega
        calc acc + n % 128 * 2 ^ shift < 2 ^ shift + n % 128 * 2 ^ shift := by omega
          _ ≤ 2 ^ shift + 127 * 2 ^ shift := by
              have := Nat.mul_le_mul_right (2 ^ shift) hm
              omega
          _ = 2 ^ shift * 128 := by ring
          _ = 2 ^ (shift + 7) := by rw [pow_add]; norm_num
      have hlt : n >>> 7 < n := by
        rw [Nat.shiftRight_eq_div_pow]
        exact Nat.div_lt_self (by omega) (by norm_num)
      rw [ih (n >>> 7) hlt rest (shift + 7) _ hacc'lt]
      have hdiv : n >>> 7 = n / 128 := by
        rw [Nat.shiftRight_eq_div_pow]
      have hval : acc + n % 128 * 2 ^ shift + n >>> 7 * 2 ^ (shift + 7)
          = acc + n * 2 ^ shift := by
        have hsplit : n % 128 + n / 128 * 128 = n := by omega
        rw [hdiv, pow_add, show (2 : Nat) ^ 7 = 128 from rfl]
        conv_rhs => rw [← hsplit]
        ring
      simp only [Option.map_some']
      rw [hval]
      simp
    · rw [if_neg h]
      have hn : n &&& 0x7F = n := by
        rw [and_127_eq_mod]
        exact Nat.mod_eq_of_lt (by omega)
      rw [hn, List.cons_append, read_varuint_aux,
          if_pos (and_128_eq_zero (show n < 128 by omega)), hn,
          lor_shiftLeft_eq_add _ hacc]
      simp

theorem read_varuint_encode (n : Nat) (rest : List Nat) :
    read_varuint (encode_varint n ++ rest) = some (n, (encode_varint n).length) := by
  have h := read_varuint_aux_encode n rest 0 0 (by norm_num)
  simpa [read_varuint] using h

/-- C1 helper: the encoded frame laid out for sequential varint reads. -/
theorem decode_frame_encode (t : Nat) (p : List Nat) :
    decode_frame (make_packet t p)
      = some (t, p, 1 + (encode_varint p.length).length + (encode_varint t).length
                      + p.length) := by
  have hLl : 1 ≤ (encode_varint p.length).length := by
    cases hcl : encode_varint p.length with
    | nil => exact absurd hcl (encode_varint_ne_nil _)
    | cons a l => simp
  have hTl : 1 ≤ (encode_varint t).length := by
    cases hct : encode_varint t with
    | nil => exact absurd hct (encode_varint_ne_nil _)
    | cons a l => simp
  have hbuf : make_packet t p
      = 0 :: (encode_varint p.length ++ (encode_varint t ++ p)) := rfl
  have h0 : read_varuint (0 :: (encode_varint p.length ++ (encode_varint t ++ p)))
      = some (0, 1) := rfl
  have h1 : read_varuint (encode_varint p.length ++ (encode_varint t ++ p))
      = some (p.length, (encode_varint p.length).length) := read_varuint_encode _ _
  have h2 : read_varuint (encode_varint t ++ p)
      = some (t, (encode_varint t).length) := read_varuint_encode _ _
  have hd1 : (0 :: (encode_varint p.length ++ (encode_varint t ++ p))).drop 1
      = encode_varint p.length ++ (encode_varint t ++ p) := rfl
  have hd2 : (0 :: (encode_varint p.length ++ (encode_varint t ++ p))).drop
      (1 + (encode_varint p.length).length) = encode_varint t ++ p := by
    rw [Nat.add_comm, List.drop_succ_cons, List.drop_left]
  have hd3 : (0 :: (encode_varint p.length ++ (encode_varint t ++ p))).drop
      (1 + (encode_varint p.length).length + (encode_varint t).length) = p := by
    rw [show 1 + (encode_varint p.length).length + (encode_varint t).length
          = ((encode_varint p.length).length + (encode_varint t).length) + 1 by omega,
        List.drop_succ_cons,
        show encode_varint p.length ++ (encode_varint t ++ p)
          = (encode_varint p.length ++ encode_varint t) ++ p from
          (List.append_assoc _ _ _).symm,
        show (encode_varint p.length).length + (encode_varint t).length
          = (encode_varint p.length ++ encode_varint t).length from
          (List.length_append _ _).symm,
        List.drop_left]
  have hlen3 : ¬ ((0 :: (encode_varint p.length ++ (encode_varint t ++ p))).length < 3) := by
    simp only [List.length_cons, List.length_append]
    omega
  rw [hbuf]
  unfold decode_frame
  rw [if_neg hlen3, h0]
  dsimp only
  rw [if_neg (by simp : ¬ (0 : Nat) ≠ 0), hd1, h1]
  dsimp only
  rw [hd2, h2]
  dsimp only
  rw [hd3, if_neg (lt_irrefl _), List.take_length]

/-- C1: for every msg_type and every payload of at most 64 KiB, decoding the
frame produced by `_make_packet` (`[0x00][varint payload_len][varint msg_type]
[payload]`) yields back exactly `(msg_type, payload)` and consumes exactly
`1 + varint_len(payload_len) + varint_len(msg_type) + payload_len` bytes;
the length field counts payload bytes only. -/
theorem c1_framing_round_trip (t : Nat) (p : List Nat) (hp : p.length ≤ 65536) :
    decode_frame (make_packet t p)
      = some (t, p, 1 + (encode_varint p.length).length + (encode_varint t).length
                      + p.length) :=
  decode_frame_encode t p

/-- C1 witness: concrete round trip for msg_type 42 and payload `[9, 8, 7]`,
consuming 6 = 1 + 1 + 1 + 3 bytes. -/
theorem c1_framing_round_trip_witness :
    ([9, 8, 7] : List Nat).length ≤ 65536 ∧
    decode_frame (make_packet 42 [9, 8, 7]) = some (42, [9, 8, 7], 6) := by
  refine ⟨by norm_num, ?_⟩
  have h := c1_framing_round_trip 42 [9, 8, 7] (by norm_num)
  have e1 : encode_varint 3 = [3] := by
    rw [encode_varint.eq_def]; norm_num [and_127_eq_mod]
  have e2 : encode_varint 42 = [42] := by
    rw [encode_varint.eq_def]; norm_num [and_127_eq_mod]
  simpa [e1, e2] using h

set_option maxRecDepth 40000 in
/-- C2 counterexample: the CRC-16/Modbus of `01 03 13 88 00 08` as computed by
`_calculate_crc` (polynomial 0xA001, initial value 0xFFFF, reflected) is
0xA2C0, not the 0x2CC0 the claim states. -/
theorem c2_crc_counterexample :
    calculate_crc [0x01, 0x03, 0x13, 0x88, 0x00, 0x08] = 0xA2C0 ∧
    calculate_crc [0x01, 0x03, 0x13, 0x88, 0x00, 0x08] ≠ 0x2CC0 := by
  exact ⟨by decide, by decide⟩

set_option maxRecDepth 40000 in
/-- C2 amended: the CRC-16/Modbus of `01 03 13 88 00 08` equals 0xA2C0, and the
request builders append the CRC low byte first: `_calculate_crc` returns
`[lo, hi]` and `create_generic_read_request` appends `crc[0]` then `crc[1]`,
so the request for unit 1, register 0x1388, 8 words ends in `C0 A2`. -/
theorem c2_crc_amended :
    calculate_crc [0x01, 0x03, 0x13, 0x88, 0x00, 0x08] = 0xA2C0 ∧
    calculate_crc_bytes [0x01, 0x03, 0x13, 0x88, 0x00, 0x08] = [0xC0, 0xA2] ∧
    create_generic_read_request 0x01 0x03 0x1388 0x0008
      = [0x01, 0x03, 0x13, 0x88, 0x00, 0x08, 0xC0, 0xA2] := by
  exact ⟨by decide, by decide, by decide⟩

/-- C3 counterexample: with the `BatteryClient`-style sections
`[(5000, 8, parser), (5042, 6, parser)]`, unit ids `[48]`, and a notification
`[0x01, 0x06, 0x00]` whose function byte is neither 0x03 nor 0x83, the parser
is skipped (consistent with the claim) but the cycle does NOT continue to the
next section: no follow-up read is scheduled and the indices are unchanged,
contradicting the claim that "the cycle still continues to the next
section". -/
theorem c3_counterexample :
    (on_data_received [⟨5000, 8, true⟩, ⟨5042, 6, true⟩] [48] ⟨0, 0⟩
        [0x01, 0x06, 0x00]).parserInvoked = false ∧
    (on_data_received [⟨5000, 8, true⟩, ⟨5042, 6, true⟩] [48] ⟨0, 0⟩
        [0x01, 0x06, 0x00]).continues = false ∧
    (on_data_received [⟨5000, 8, true⟩, ⟨5042, 6, true⟩] [48] ⟨0, 0⟩
        [0x01, 0x06, 0x00]).state = ⟨0, 0⟩ := by
  exact ⟨by decide, by decide, by decide⟩

/-- C3 amended: during a read cycle (section index in range, section parser
registered), the parser is invoked iff `response[1] == 0x03` and
`len(response) == words * 2 + 5`; a response whose function byte is 0x03 or
0x83 always lets the cycle continue (next section or pass completion), but a
response with any other function byte is dropped: the parser is skipped, no
follow-up read is scheduled and the section/device indices are unchanged. -/
theorem c3_amended (sections : List RegSection) (deviceIds : List Nat)
    (s : ClientState) (response : List Nat)
    (hidx : s.sectionIndex < sections.length)
    (hpar : (sections.getD s.sectionIndex ⟨0, 0, false⟩).hasParser = true) :
    ((on_data_received sections deviceIds s response).parserInvoked = true ↔
      (bytes_to_int_1_1 response = 0x03 ∧
       (sections.getD s.sectionIndex ⟨0, 0, false⟩).words * 2 + 5 = response.length)) ∧
    ((bytes_to_int_1_1 response = 0x03 ∨ bytes_to_int_1_1 response = 0x83) →
      (on_data_received sections deviceIds s response).continues = true) ∧
    (¬ (bytes_to_int_1_1 response = 0x03 ∨ bytes_to_int_1_1 response = 0x83) →
      (on_data_received sections deviceIds s response).continues = false ∧
      (on_data_received sections deviceIds s response).state = s) := by
  unfold on_data_received
  by_cases hop : bytes_to_int_1_1 response = READ_SUCCESS
                 ∨ bytes_to_int_1_1 response = READ_ERROR
  · rw [if_pos hop]
    have hblt : Nat.blt s.sectionIndex sections.length = true := by
      rw [Nat.blt_eq]
      exact hidx
    have hinv : (bytes_to_int_1_1 response == READ_SUCCESS
          && Nat.blt s.sectionIndex sections.length
          && (sections.getD s.sectionIndex ⟨0, 0, false⟩).hasParser
          && ((sections.getD s.sectionIndex ⟨0, 0, false⟩).words * 2 + 5
              == response.length)) = true
        ↔ (bytes_to_int_1_1 response = 0x03
           ∧ (sections.getD s.sectionIndex ⟨0, 0, false⟩).words * 2 + 5
              = response.length) := by
      simp only [Bool.and_eq_true, beq_iff_eq, READ_SUCCESS]
      constructor
      · rintro ⟨⟨⟨h1, _⟩, _⟩, h4⟩
        exact ⟨h1, h4⟩
      · rintro ⟨h1, h4⟩
        exact ⟨⟨⟨h1, hblt⟩, hpar⟩, h4⟩
    refine ⟨?_, fun _ => by split_ifs <;> rfl, fun hc => absurd hop hc⟩
    split_ifs <;> (dsimp only; exact hinv)
  · rw [if_neg hop]
    have hne : ¬ bytes_to_int_1_1 response = 0x03 := fun h => hop (Or.inl h)
    exact ⟨by simp [hne], fun hc => absurd hc hop, fun _ => ⟨rfl, rfl⟩⟩

/-- C3 amended witness: a well-formed 21-byte success response for the first
8-word section invokes the parser and continues the cycle. -/
theorem c3_amended_witness :
    ((0 : Nat) < 2) ∧
    (([⟨5000, 8, true⟩, ⟨5042, 6, true⟩] : List RegSection).getD 0
        ⟨0, 0, false⟩).hasParser = true ∧
    ((on_data_received [⟨5000, 8, true⟩, ⟨5042, 6, true⟩] [48] ⟨0, 0⟩
        [0x30, 0x03, 0x10, 0, 0, 0, 0, 0, 0, 0, 0, 0, 0, 0, 0, 0, 0, 0, 0,
         0xAA, 0xBB]).parserInvoked = true ↔
      (bytes_to_int_1_1 [0x30, 0x03, 0x10, 0, 0, 0, 0, 0, 0, 0, 0, 0, 0, 0,
          0, 0, 0, 0, 0, 0xAA, 0xBB] = 0x03 ∧
       (([⟨5000, 8, true⟩, ⟨5042, 6, true⟩] : List RegSection).getD 0
          ⟨0, 0, false⟩).words * 2 + 5
         = ([0x30, 0x03, 0x10, 0, 0, 0, 0, 0, 0, 0, 0, 0, 0, 0, 0, 0, 0, 0,
             0, 0xAA, 0xBB] : List Nat).length)) := by
  refine ⟨by decide, by decide, ?_⟩
  exact (c3_amended [⟨5000, 8, true⟩, ⟨5042, 6, true⟩] [48] ⟨0, 0⟩ _
    (by decide) (by decide)).1

theorem set_running_locked_pauseTokens (s : SupState) (t : Bool) :
    (set_running_locked s t).pauseTokens = s.pauseTokens := by
  unfold set_running_locked
  split_ifs <;> rfl

/-- C6: starting from `running = true, pause_tokens = 0`, the sequence
`pause(A); pause(B); resume(A); resume(B)` ends with `running = true`, and the
scanner is stopped from the completion of the first pause until the completion
of the last resume; in general a resume restarts a stopped scanner only when
the token counter returns to zero (i.e. from exactly one outstanding
token). -/
theorem c6_pause_resume_fifo :
    (pause ⟨true, 0, false⟩ = ⟨false, 1, false⟩) ∧
    (pause (pause ⟨true, 0, false⟩) = ⟨false, 2, false⟩) ∧
    (resume (pause (pause ⟨true, 0, false⟩)) = ⟨false, 1, false⟩) ∧
    (resume (resume (pause (pause ⟨true, 0, false⟩))) = ⟨true, 0, false⟩) ∧
    (∀ s : SupState, s.running = false → (resume s).running = true →
      s.pauseTokens = 1) := by
  refine ⟨by decide, by decide, by decide, by decide, ?_⟩
  intro s hrun hres
  by_cases h0 : s.pauseTokens = 0
  · rw [resume, if_pos h0, hrun] at hres
    exact absurd hres (by simp)
  · by_cases h1 : s.pauseTokens - 1 = 0
    · omega
    · rw [resume, if_neg h0, if_neg h1] at hres
      simp only at hres
      rw [hrun] at hres
      exact absurd hres (by simp)

/-- C6 witness: the general only-at-zero conjunct applied at the concrete
stopped state with one outstanding token. -/
theorem c6_pause_resume_fifo_witness :
    (⟨false, 1, false⟩ : SupState).running = false ∧
    (resume ⟨false, 1, false⟩).running = true ∧
    (⟨false, 1, false⟩ : SupState).pauseTokens = 1 :=
  ⟨by decide, by decide,
    c6_pause_resume_fifo.2.2.2.2 ⟨false, 1, false⟩ (by decide) (by decide)⟩

/-- C9: calling `resume` while `pause_tokens == 0` is a no-op (state returned
unchanged), and under every sequence of pause/resume calls from a state with a
non-negative token count the counter never becomes negative. -/
theorem c9_resume_noop_tokens_nonneg :
    (∀ s : SupState, s.pauseTokens = 0 → resume s = s) ∧
    (∀ (s : SupState) (ops : List SupOp), 0 ≤ s.pauseTokens →
      0 ≤ (run_ops s ops).pauseTokens) := by
  constructor
  · intro s h
    rw [resume, if_pos h]
  · intro s ops
    induction ops generalizing s with
    | nil => intro h; exact h
    | cons op rest ih =>
      intro h
      cases op with
      | pauseOp =>
        apply ih
        unfold pause
        split_ifs with h1
        · rw [set_running_locked_pauseTokens]
          show 0 ≤ s.pauseTokens + 1
          omega
        · show 0 ≤ s.pauseTokens + 1
          omega
      | resumeOp =>
        apply ih
        unfold resume
        split_ifs with h1 h2
        · exact h
        · rw [set_running_locked_pauseTokens]
          show 0 ≤ s.pauseTokens - 1
          omega
        · show 0 ≤ s.pauseTokens - 1
          omega

/-- C9 witness: the no-op at zero tokens, and non-negativity along the trace
`pause; resume; resume` from the initial state. -/
theorem c9_resume_noop_tokens_nonneg_witness :
    resume ⟨true, 0, false⟩ = ⟨true, 0, false⟩ ∧
    0 ≤ (run_ops ⟨true, 0, false⟩
      [SupOp.pauseOp, SupOp.resumeOp, SupOp.resumeOp]).pauseTokens :=
  ⟨c9_resume_noop_tokens_nonneg.1 ⟨true, 0, false⟩ rfl,
   c9_resume_noop_tokens_nonneg.2 ⟨true, 0, false⟩
     [SupOp.pauseOp, SupOp.resumeOp, SupOp.resumeOp] (by decide)⟩

/-- C4 counterexample: the reconstructed payload for the event with only
manufacturer data `{0x02E1: 11 22 33}` is `02 01 06 06 FF E1 02 11 22 33`:
the manufacturer segment carries length byte 0x06 (2 company-id bytes +
3 data bytes + 1), so the claimed segment `05 FF E1 02 11 22 33` does not
occur in it. -/
theorem c4_counterexample :
    build_raw_data c4_event
      = [0x02, 0x01, 0x06, 0x06, 0xFF, 0xE1, 0x02, 0x11, 0x22, 0x33] ∧
    segment_occurs [0x05, 0xFF, 0xE1, 0x02, 0x11, 0x22, 0x33]
      (build_raw_data c4_event) = false := by
  exact ⟨by decide, by decide⟩

/-- C4 amended: the reconstructed payload begins with the flags segment
`02 01 06` and contains the manufacturer-data segment `06 FF E1 02 11 22 33`,
where each segment is `[len, type, payload...]` with `len = payload_len + 1`
(here the payload is the little-endian company id `E1 02` plus the 3 data
bytes, hence `len = 6`). -/
theorem c4_amended :
    (build_raw_data c4_event).take 3 = [0x02, 0x01, 0x06] ∧
    segment_occurs [0x06, 0xFF, 0xE1, 0x02, 0x11, 0x22, 0x33]
      (build_raw_data c4_event) = true := by
  exact ⟨by decide, by decide⟩

/-- C5 counterexample: with a single entity (key 1000, data key "voltage",
`force_update = false`) and two consecutive identical readings
`voltage = 131`, a subscribed session is sent the `SensorStateResponse`
`(1000, 131)` twice: the repeated equal value IS re-published even though it
does not differ from the previously published one and `force_update` is
false. -/
theorem c5_counterexample :
    c5_entities.all (fun e => !e.2.forceUpdate) = true ∧
    process_readings true true c5_entities [[("voltage", 131)], [("voltage", 131)]]
      = [[(1000, 131, false)], [(1000, 131, false)]] := by
  exact ⟨by decide, by decide⟩

theorem getD_map_of_lt {α β : Type} (f : α → β) (l : List α) (i : Nat)
    (hi : i < l.length) (d1 : α) (d2 : β) :
    (l.map f).getD i d2 = f (l.getD i d1) := by
  induction l generalizing i with
  | nil => cases hi
  | cons a t ih =>
    cases i with
    | zero => rfl
    | succ j => exact ih j (Nat.lt_of_succ_lt_succ hi)

/-- C5 amended: for every sequence of readings, the responses written for the
i-th batch depend only on that batch (the server keeps no previously-published
value and never consults `force_update`): every reading whose data key matches
an entity is re-published on every call, equal or not. -/
theorem c5_amended (entities : List (String × EntityInfo))
    (batches : List (List (String × Int))) (i : Nat) (hi : i < batches.length) :
    (process_readings true true entities batches).getD i []
      = send_sensor_states true true entities (batches.getD i []) ∧
    send_sensor_states true true entities (batches.getD i [])
      = (batches.getD i []).filterMap (fun dv =>
          (find_matching_entity entities dv.1).map (fun e => (e.key, dv.2, false))) := by
  constructor
  · exact getD_map_of_lt _ batches i hi [] []
  · rfl

/-- C5 amended witness: the second of two equal readings is still published. -/
theorem c5_amended_witness :
    (1 : Nat) < ([[("voltage", 5)], [("voltage", 5)]]
        : List (List (String × Int))).length ∧
    (process_readings true true c5_entities
        [[("voltage", 5)], [("voltage", 5)]]).getD 1 []
      = send_sensor_states true true c5_entities
          (([[("voltage", 5)], [("voltage", 5)]]
            : List (List (String × Int))).getD 1 []) := by
  refine ⟨by decide, ?_⟩
  exact (c5_amended c5_entities [[("voltage", 5)], [("voltage", 5)]] 1 (by decide)).1

theorem takeWhile_append_not (p : Char → Bool) (xs : List Char) (y : Char)
    (ys : List Char) (hxs : ∀ c ∈ xs, p c = true) (hy : p y = false) :
    (xs ++ y :: ys).takeWhile p = xs := by
  induction xs with
  | nil => simp [List.takeWhile_cons, hy]
  | cons a t ih =>
    have ha : p a = true := hxs a (by simp)
    simp only [List.cons_append, List.takeWhile_cons, ha, if_true]
    rw [ih (fun c hc => hxs c (by simp [hc]))]

theorem dropWhile_append_not (p : Char → Bool) (xs : List Char) (y : Char)
    (ys : List Char) (hxs : ∀ c ∈ xs, p c = true) (hy : p y = false) :
    (xs ++ y :: ys).dropWhile p = y :: ys := by
  induction xs with
  | nil => simp [List.dropWhile_cons, hy]
  | cons a t ih =>
    have ha : p a = true := hxs a (by simp)
    simp only [List.cons_append, List.dropWhile_cons, ha, if_true]
    exact ih (fun c hc => hxs c (by simp [hc]))

theorem claim_hex_imp_hex {c : Char} (h : claim_upper_hex_colon c = true) :
    is_hex_colon_char c = true := by
  simp only [claim_upper_hex_colon, Bool.or_eq_true] at h
  simp only [is_hex_colon_char, Bool.or_eq_true]
  tauto

/-- C7: an advertisement whose device name has the shape
`hci<digits> (<upper-hex-and-colons>)` — i.e. matches the claim's pattern
`^hci\d+ \([0-9A-F:]+\)$` — is never forwarded: the fan-out callback is not
invoked, whether or not a subscription callback is registered. -/
theorem c7_self_advertisement_filtered (cb : Bool) (ds hs : List Char)
    (hds : ds ≠ []) (hdsd : ∀ c ∈ ds, c.isDigit = true)
    (hhs : hs ≠ []) (hhsh : ∀ c ∈ hs, claim_upper_hex_colon c = true) :
    on_ble_advertisement_forwards cb
      (some (String.mk ('h' :: 'c' :: 'i' :: (ds ++ ' ' :: '(' :: (hs ++ [')'])))))
      = false := by
  set n := String.mk ('h' :: 'c' :: 'i' :: (ds ++ ' ' :: '(' :: (hs ++ [')'])))
    with hn
  have hmatch : adapter_name_match n = true := by
    have htoList : n.toList
        = 'h' :: 'c' :: 'i' :: (ds ++ ' ' :: '(' :: (hs ++ [')'])) := rfl
    rw [adapter_name_match, htoList]
    have htd : (ds ++ ' ' :: '(' :: (hs ++ [')'])).takeWhile Char.isDigit = ds :=
      takeWhile_append_not _ _ _ _ hdsd (by decide)
    have hdd : (ds ++ ' ' :: '(' :: (hs ++ [')'])).dropWhile Char.isDigit
        = ' ' :: '(' :: (hs ++ [')']) :=
      dropWhile_append_not _ _ _ _ hdsd (by decide)
    have hts : (' ' :: '(' :: (hs ++ [')'])).takeWhile is_space_char = [' '] := by
      have := takeWhile_append_not is_space_char [' '] '(' (hs ++ [')'])
        (by decide) (by decide)
      simpa using this
    have hdsp : (' ' :: '(' :: (hs ++ [')'])).dropWhile is_space_char
        = '(' :: (hs ++ [')']) := by
      have := dropWhile_append_not is_space_char [' '] '(' (hs ++ [')'])
        (by decide) (by decide)
      simpa using this
    have hth : (hs ++ [')']).takeWhile is_hex_colon_char = hs := by
      have : (hs ++ ')' :: []).takeWhile is_hex_colon_char = hs :=
        takeWhile_append_not _ _ _ _ (fun c hc => claim_hex_imp_hex (hhsh c hc))
          (by decide)
      simpa using this
    have hdh : (hs ++ [')']).dropWhile is_hex_colon_char = [')'] := by
      have : (hs ++ ')' :: []).dropWhile is_hex_colon_char = ')' :: [] :=
        dropWhile_append_not _ _ _ _ (fun c hc => claim_hex_imp_hex (hhsh c hc))
          (by decide)
      simpa using this
    simp only [htd, hdd, hts, hdsp, hth, hdh]
    rw [if_neg]
    · simp [List.isEmpty_eq_true, hhs]
    · simp [List.isEmpty_eq_true, hds]
  have hne : (n == "") = false := by
    rw [beq_eq_false_iff_ne]
    intro hcontra
    have : n.data = ("" : String).data := by rw [hcontra]
    simp [hn] at this
  rw [on_ble_advertisement_forwards]
  cases cb with
  | false => rfl
  | true =>
    simp only [Bool.not_true, Bool.false_eq_true, if_false]
    rw [hne, hmatch]
    simp

/-- C7 witness: the host adapter name `hci0 (AA:BB:CC:DD:EE:FF)` is filtered
even with a registered subscription callback. -/
theorem c7_self_advertisement_filtered_witness :
    (['0'] : List Char) ≠ [] ∧
    on_ble_advertisement_forwards true
      (some (String.mk ('h' :: 'c' :: 'i' ::
        (['0'] ++ ' ' :: '(' ::
          ("AA:BB:CC:DD:EE:FF".toList ++ [')'])))))
      = false := by
  refine ⟨by decide, ?_⟩
  exact c7_self_advertisement_filtered true ['0'] "AA:BB:CC:DD:EE:FF".toList
    (by decide) (by decide) (by decide) (by decide)

theorem create_keys_snd (data : List DataField) (aliasName : String) :
    ∀ base : Int, (create_sensor_entities_keys data aliasName base).map Prod.snd
      = int_range_from base (data.filter included_field).length := by
  induction data with
  | nil => intro base; rfl
  | cons f fs ih =>
    intro base
    by_cases h : included_field f = true
    · simp only [create_sensor_entities_keys]
      rw [if_pos h, List.filter_cons_of_pos h]
      simp only [List.map_cons, List.length_cons, int_range_from, ih]
    · simp only [create_sensor_entities_keys]
      rw [if_neg h, List.filter_cons_of_neg h]
      exact ih base

theorem create_keys_fst (data : List DataField) (aliasName : String) :
    ∀ base : Int, (create_sensor_entities_keys data aliasName base).map Prod.fst
      = (data.filter included_field).map (fun f => aliasName ++ "_" ++ f.name) := by
  induction data with
  | nil => intro base; rfl
  | cons f fs ih =>
    intro base
    by_cases h : included_field f = true
    · simp only [create_sensor_entities_keys]
      rw [if_pos h, List.filter_cons_of_pos h]
      simp only [List.map_cons, ih]
    · simp only [create_sensor_entities_keys]
      rw [if_neg h, List.filter_cons_of_neg h]
      exact ih base

/-- C8: on a device's first reading, the allocated entity keys start at
`base = 1000 + (unit_id - 48) * 1000` and increase by one per exported numeric
field in iteration order (skipped fields consume no key), the entity names
follow the filtered fields in order, and combined entities are allocated from
the distinct base 5000. -/
theorem c8_entity_key_allocation (data : List DataField) (aliasName : String)
    (devId : Option Int) :
    (create_sensor_entities_keys data aliasName (device_base_key devId)).map
        Prod.snd
      = int_range_from (device_base_key devId)
          (data.filter included_field).length ∧
    (create_sensor_entities_keys data aliasName (device_base_key devId)).map
        Prod.fst
      = (data.filter included_field).map (fun f => aliasName ++ "_" ++ f.name) ∧
    device_base_key devId = 1000 + (devId.getD 48 - 48) * 1000 ∧
    combined_base_key = 5000 :=
  ⟨create_keys_snd data aliasName _, create_keys_fst data aliasName _, rfl, rfl⟩

/-- C10: `set_sensor_entities` accepts only the entities dictionary; every
call that additionally passes the keyword argument `replace` (as both
entity-initialization paths of the proxy do with `replace=False`) raises
`TypeError`, the caller catches and logs it, and the server's sensor entity
set — and the set of initialized aliases — is left unchanged. -/
theorem c10_replace_kwarg_type_error (server : ServerState)
    (ents : List (String × EntityInfo)) (kwargNames : List String)
    (hk : "replace" ∈ kwargNames) :
    (∃ msg, call_set_sensor_entities server ents kwargNames
      = Except.error msg) ∧
    (∀ (st : ProxyInitState) (aliasId : String),
      init_device_entities server st aliasId ents = (server, st)) := by
  constructor
  · refine ⟨"unexpected keyword argument", ?_⟩
    rw [call_set_sensor_entities, if_pos]
    rw [List.any_eq_true]
    exact ⟨"replace", hk, by decide⟩
  · intro st aliasId
    rfl

/-- C10 witness: the concrete call with `replace=False` fails and leaves an
empty server untouched. -/
theorem c10_replace_kwarg_type_error_witness :
    ("replace" ∈ ["replace"]) ∧
    (∃ msg, call_set_sensor_entities ⟨[]⟩ [] ["replace"] = Except.error msg) ∧
    init_device_entities ⟨[]⟩ ⟨[]⟩ "batt_48" [] = (⟨[]⟩, ⟨[]⟩) := by
  refine ⟨by decide, ?_, ?_⟩
  · exact (c10_replace_kwarg_type_error ⟨[]⟩ [] ["replace"] (by decide)).1
  · exact (c10_replace_kwarg_type_error ⟨[]⟩ [] ["replace"] (by decide)).2 ⟨[]⟩ "batt_48"

end RenogyBT
